import Mathlib

/-!
Shallow embedding of miniconf (`src/miniconf.cpp`), a C++ configuration and
command-line argument manager, together with proofs about its behaviour.

Modelling conventions:
* `std::map<std::string, T>` is modelled as a key-sorted association list
  `List (String × T)` with `mfind` / `mset` / `minsert` / `merase` mirroring
  `find`, `operator[]=`, `insert` and `erase`.
* C machine integers are modelled as `Int`; `sscanf("%d")` overflow is
  undefined behaviour in C and is modelled as the unbounded value.
* C doubles are external to every property proved here; a `NUMBER` payload is
  represented by the token text it was scanned from.
* libc `strtod` / `sscanf` conversions are modelled by their C99 subject
  grammar (whitespace, sign, decimal/hex mantissa, exponent, inf/nan).
* I/O (file reads, stream printing) is out of scope per the spec; file
  contents and the external picojson parser are oracle parameters.
-/

namespace Miniconf

/-- Severity of log records, mirroring `Config::LogLevel`
(`INFO < WARNING < ERROR < NONE`). -/
inductive LogLevel
  | INFO
  | WARNING
  | ERROR
  | NONE
  deriving DecidableEq, Repr

/-- The underlying integer of the C++ `enum class LogLevel`, used for the
`<`, `<=`, `>=` comparisons in the source. -/
def LogLevel.toNat : LogLevel → Nat
  | .INFO => 0
  | .WARNING => 1
  | .ERROR => 2
  | .NONE => 3

/-- `worseLevel` from the source: the larger of two levels. -/
def worseLevel (a b : LogLevel) : LogLevel :=
  if a.toNat < b.toNat then b else a

/-- `Value::DataType` from the source. -/
inductive DataType
  | UNKNOWN
  | INT
  | NUMBER
  | BOOL
  | STRING
  deriving DecidableEq, Repr

/-- `miniconf::Value`: a tagged container.  `unknown` is the empty (Absent)
value (`_data == nullptr`).  The `num` payload carries the text the double
was scanned from; the double itself is external to the properties below. -/
inductive Value
  | unknown
  | int (n : Int)
  | num (render : String)
  | bool (b : Bool)
  | str (s : String)
  deriving DecidableEq, Repr

/-- `Value::type()`. -/
def Value.type : Value → DataType
  | .unknown => .UNKNOWN
  | .int _ => .INT
  | .num _ => .NUMBER
  | .bool _ => .BOOL
  | .str _ => .STRING

/-- `Value::isEmpty()`: true iff no data is stored / the tag is UNKNOWN. -/
def Value.isEmpty : Value → Bool
  | .unknown => true
  | _ => false

/-- `Value::print()`.  Note that in the source the `UNKNOWN` branch writes
"null" into a scratch buffer but never assigns `outStr`, so an empty value
prints as the empty string.  The `%f` rendering of a double is external; a
`num` payload prints as its stored text. -/
def Value.print : Value → String
  | .unknown => ""
  | .int n => toString n
  | .num r => r
  | .bool b => if b then "true" else "false"
  | .str s => "\"" ++ s ++ "\""

/-- `Value::printType()`. -/
def Value.printType : Value → String
  | .unknown => "UNKNOWN"
  | .int _ => "INT"
  | .num _ => "NUMBER"
  | .bool _ => "BOOLEAN"
  | .str _ => "STRING"

/-- ASCII lowercasing, used only to state the spec's notion of
case-insensitive equality. -/
def asciiLower (s : String) : String :=
  String.mk (s.data.map Char.toLower)

/- ### Association-list model of `std::map<std::string, T>` -/

/-- Lexicographic order on char sequences (the `std::string` `operator<`
order used by `std::map`, coinciding on the ASCII keys that occur here). -/
def strLtb : List Char → List Char → Bool
  | [], [] => false
  | [], _ :: _ => true
  | _ :: _, [] => false
  | a :: as, b :: bs =>
    if a.toNat < b.toNat then true
    else if b.toNat < a.toNat then false
    else strLtb as bs

/-- `map.find(k)` (the mapped value, `none` when the key is absent). -/
def mfind (k : String) : List (String × α) → Option α
  | [] => none
  | (k', v) :: rest => if k' = k then some v else mfind k rest

/-- `map[k] = v`: overwrite-or-insert, keeping keys sorted like `std::map`. -/
def mset (k : String) (v : α) : List (String × α) → List (String × α)
  | [] => [(k, v)]
  | (k', v') :: rest =>
    if k = k' then (k, v) :: rest
    else if strLtb k.data k'.data then (k, v) :: (k', v') :: rest
    else (k', v') :: mset k v rest

/-- `map.insert({k, v})`: inserts only when the key is absent. -/
def minsert (k : String) (v : α) : List (String × α) → List (String × α)
  | [] => [(k, v)]
  | (k', v') :: rest =>
    if k = k' then (k', v') :: rest
    else if strLtb k.data k'.data then (k, v) :: (k', v') :: rest
    else (k', v') :: minsert k v rest

/-- `map.erase(k)`. -/
def merase (k : String) (m : List (String × α)) : List (String × α) :=
  m.filter (fun kv => kv.1 != k)

/-- `map.find(k) != map.end()`. -/
def mcontains (k : String) (m : List (String × α)) : Bool :=
  (mfind k m).isSome

/- ### libc scanners (`sscanf("%d")`, `strtod`) -/

/-- C `isspace` on the default locale. -/
def isSpaceC (c : Char) : Bool :=
  c = ' ' || c = '\t' || c = '\n' || c = '\x0b' || c = '\x0c' || c = '\r'

/-- Decimal digit test. -/
def isDigitC (c : Char) : Bool :=
  '0' ≤ c && c ≤ '9'

/-- Hexadecimal digit test. -/
def isHexDigitC (c : Char) : Bool :=
  isDigitC c || ('a' ≤ c && c ≤ 'f') || ('A' ≤ c && c ≤ 'F')

/-- Numeric value of a decimal digit string. -/
def natOfDigits (ds : List Char) : Nat :=
  ds.foldl (fun a c => a * 10 + (c.toNat - '0'.toNat)) 0

/-- Scan a nonempty maximal run of decimal digits; `none` when the input
does not start with a digit. -/
def scanUnsigned (cs : List Char) : Option Nat :=
  let ds := cs.takeWhile isDigitC
  if ds.isEmpty then none else some (natOfDigits ds)

/-- Model of `sscanf(token, "%d", &v)`: skip whitespace, optional sign,
then a nonempty maximal digit run (a *prefix* scan — trailing characters
are ignored).  Returns the converted value, or `none` when no conversion
is performed (in which case the source's `success == 1` test fails). -/
def scanIntTok (cs : List Char) : Option Int :=
  match cs.dropWhile isSpaceC with
  | [] => none
  | c :: rest =>
    if c = '-' then (scanUnsigned rest).map (fun n => -(n : Int))
    else if c = '+' then (scanUnsigned rest).map (fun n => (n : Int))
    else (scanUnsigned (c :: rest)).map (fun n => (n : Int))

/-- Strip a case-insensitive keyword, returning the remainder. -/
def stripKw (kw : List Char) (cs : List Char) : Option (List Char) :=
  match kw, cs with
  | [], _ => some cs
  | _ :: _, [] => none
  | k :: ks, c :: rest => if c.toLower = k then stripKw ks rest else none

/-- Character allowed inside a `nan(...)` payload. -/
def isNanChar (c : Char) : Bool :=
  isDigitC c || ('a' ≤ c && c ≤ 'z') || ('A' ≤ c && c ≤ 'Z') || c = '_'

/-- Optional `(n-char-sequence)` after `nan`. -/
def scanNanTail (cs : List Char) : List Char :=
  match cs with
  | '(' :: rest =>
    let body := rest.takeWhile isNanChar
    match rest.drop body.length with
    | ')' :: r2 => r2
    | _ => cs
  | _ => cs

/-- Optional exponent part `[eE|pP] [+-]? digits+`; consumed only when at
least one digit follows, as libc leaves a dangling marker unconsumed. -/
def scanExp (mark1 mark2 : Char) (cs : List Char) : List Char :=
  match cs with
  | m :: rest =>
    if m = mark1 || m = mark2 then
      let rest2 :=
        match rest with
        | s :: r2 => if s = '+' || s = '-' then r2 else rest
        | [] => rest
      let ds := rest2.takeWhile isDigitC
      if ds.isEmpty then cs else rest2.drop ds.length
    else cs
  | [] => cs

/-- Decimal mantissa `digits* [. digits*]` with at least one digit. -/
def scanDecMant (cs : List Char) : Option (List Char) :=
  let intDs := cs.takeWhile isDigitC
  match cs.drop intDs.length with
  | '.' :: rest =>
    let fracDs := rest.takeWhile isDigitC
    if intDs.isEmpty && fracDs.isEmpty then none
    else some (rest.drop fracDs.length)
  | other => if intDs.isEmpty then none else some other

/-- Hexadecimal mantissa `hexdigits* [. hexdigits*]` with at least one digit. -/
def scanHexMant (cs : List Char) : Option (List Char) :=
  let intDs := cs.takeWhile isHexDigitC
  match cs.drop intDs.length with
  | '.' :: rest =>
    let fracDs := rest.takeWhile isHexDigitC
    if intDs.isEmpty && fracDs.isEmpty then none
    else some (rest.drop fracDs.length)
  | other => if intDs.isEmpty then none else some other

/-- C99 `strtod` magnitude after the optional sign: `infinity`/`inf`/`nan`
(case-insensitive), a hex float after `0x`/`0X`, or a decimal float. -/
def scanMagnitude (cs : List Char) : Option (List Char) :=
  match stripKw ['i', 'n', 'f', 'i', 'n', 'i', 't', 'y'] cs with
  | some r => some r
  | none =>
    match stripKw ['i', 'n', 'f'] cs with
    | some r => some r
    | none =>
      match stripKw ['n', 'a', 'n'] cs with
      | some r => some (scanNanTail r)
      | none =>
        match cs with
        | '0' :: x :: rest =>
          if x = 'x' || x = 'X' then
            match scanHexMant rest with
            | some r => some (scanExp 'p' 'P' r)
            | none => (scanDecMant cs).map (scanExp 'e' 'E')
          else (scanDecMant cs).map (scanExp 'e' 'E')
        | _ => (scanDecMant cs).map (scanExp 'e' 'E')

/-- Model of the `strtod` subject sequence: skip whitespace, optional sign,
then a magnitude.  Returns the input remaining after the subject, or `none`
when no conversion is performed (`endptr == token`). -/
def scanFloatTok (cs : List Char) : Option (List Char) :=
  match cs.dropWhile isSpaceC with
  | '-' :: rest => scanMagnitude rest
  | '+' :: rest => scanMagnitude rest
  | other => scanMagnitude other

/-- Whether `strtod(token, &endptr)` performs a conversion and consumes the
entire token (`*endptr == '\0' && endptr != token`). -/
def strtodWhole (t : String) : Bool :=
  match scanFloatTok t.data with
  | some rest => rest.isEmpty
  | none => false

/- ### Tokenization and value coercion -/

/-- `Config::TokenType`. -/
inductive TokenType
  | UNKNOWN
  | FLAG
  | SHORTFLAG
  | VALUE
  deriving DecidableEq, Repr

/-- `Config::getTokenType` (`src/miniconf.cpp:453-471`): empty tokens are
UNKNOWN; a leading '-' token that `strtod` fully consumes is a VALUE;
otherwise `--`-tokens are FLAG and `-`-tokens SHORTFLAG; everything else
is a VALUE.  (`token[1]` of the one-character token "-" is the NUL
terminator, hence SHORTFLAG.) -/
def getTokenType (token : String) : TokenType :=
  match token.data with
  | [] => TokenType.UNKNOWN
  | c0 :: rest =>
    if c0 = '-' then
      if strtodWhole token then TokenType.VALUE
      else
        match rest with
        | c1 :: _ => if c1 = '-' then TokenType.FLAG else TokenType.SHORTFLAG
        | [] => TokenType.SHORTFLAG
    else TokenType.VALUE

/-- `Config::parseValue` (`src/miniconf.cpp:510-535`): coerce a raw token
against a declared type.  INT uses the `sscanf("%d")` prefix scan, NUMBER
the `sscanf("%lf")` (strtod-grammar) prefix scan, BOOL compares against
five literal spellings of false, STRING is taken verbatim, and any other
target type yields the empty value. -/
def parseValue (token : String) (dataType : DataType) : Value :=
  if dataType = DataType.INT then
    match scanIntTok token.data with
    | some v => Value.int v
    | none => Value.unknown
  else if dataType = DataType.NUMBER then
    match scanFloatTok token.data with
    | some rest => Value.num (String.mk (token.data.take (token.data.length - rest.length)))
    | none => Value.unknown
  else if dataType = DataType.BOOL then
    if token = "false" || token = "False" || token = "FALSE" || token = "F" || token = "f"
    then Value.bool false
    else Value.bool true
  else if dataType = DataType.STRING then
    Value.str token
  else Value.unknown

/- ### Schema options and the Config state -/

/-- `Config::Option`: a schema record.  (Named `ConfigOption` because `Option`
is taken by Lean's core library.) -/
structure ConfigOption where
  flag : String
  shortflag : String
  descriptionText : String
  defaultValue : Value
  required : Bool
  hidden : Bool
  deriving DecidableEq, Repr

/-- `Config::Option::type()`: the declared type is the default value's tag. -/
def ConfigOption.type (o : ConfigOption) : DataType :=
  o.defaultValue.type

/-- The `Config::Option()` default constructor. -/
def emptyOption : ConfigOption :=
  { flag := "", shortflag := "", descriptionText := "", defaultValue := Value.unknown,
    required := false, hidden := false }

/-- One diagnostic record.  The source stores the rendered string
`"<<<LEVEL>>> Input \"token\" : msg"`; the three components are modelled
structurally. -/
structure LogEntry where
  level : LogLevel
  token : String
  message : String
  deriving DecidableEq, Repr

/-- The `Config` engine state.  (`_options`, `_optionValues`, `_log`,
`_verbose`, `_logLevel`, `_exeName`, `_description`, `_autoHelp`,
`_loadConfig`.) -/
structure Config where
  options : List (String × ConfigOption)
  optionValues : List (String × Value)
  logList : List LogEntry
  verbose : Bool
  logLevel : LogLevel
  exeName : String
  descriptionStr : String
  autoHelp : Bool
  loadConfig : Bool
  deriving DecidableEq, Repr

/-- `Config::log(logType, token, msg)` (`src/miniconf.cpp:422-451`): the
record is dropped when its level is below the active threshold; verbose
streaming is I/O and has no state effect. -/
def Config.addLog (cfg : Config) (logType : LogLevel) (token msg : String) : Config :=
  if logType.toNat < cfg.logLevel.toNat then cfg
  else { cfg with logList := cfg.logList ++ [⟨logType, token, msg⟩] }

/-- `Config::findOption`. -/
def Config.findOption (cfg : Config) (flag : String) : Bool :=
  mcontains flag cfg.options

/-- `Config::translateShortflag` (`src/miniconf.cpp:473-486`): linear scan
in map (ascending key) order for a matching short flag, falling back to
the input itself. -/
def Config.translateShortflag (cfg : Config) (shortflag : String) : String :=
  match cfg.options.find? (fun kv => kv.2.shortflag == shortflag) with
  | some kv => kv.1
  | none => shortflag

/-- The flag string resolved by `Config::getOption`: strip `--` for long
flags, translate the text after `-` for short flags. -/
def getOptionFlagStr (cfg : Config) (token : String) (tokenType : TokenType) : String :=
  if tokenType = TokenType.FLAG then token.drop 2
  else if tokenType = TokenType.SHORTFLAG then cfg.translateShortflag (token.drop 1)
  else ""

/-- `Config::getOption` (`src/miniconf.cpp:493-508`). -/
def Config.getOption (cfg : Config) (token : String) (tokenType : TokenType) :
    Option ConfigOption :=
  let flag := getOptionFlagStr cfg token tokenType
  if flag = "" then none else mfind flag cfg.options

/-- The loop of `Config::setDefaultValues`: `_optionValues[o.first] =
o.second.defaultValue()` for each registered option. -/
def setDefaultsScan : List (String × Value) → List (String × ConfigOption) →
    List (String × Value)
  | vals, [] => vals
  | vals, okv :: rest => setDefaultsScan (mset okv.1 okv.2.defaultValue vals) rest

/-- `Config::setDefaultValues` (`src/miniconf.cpp:402-407`). -/
def Config.setDefaultValues (cfg : Config) : Config :=
  { cfg with optionValues := setDefaultsScan cfg.optionValues cfg.options }

/-- `Config::option(flag)` followed by chained builder calls: insert a
fresh `Option` when the flag is absent, then mutate the map entry. -/
def Config.registerOption (cfg : Config) (flag : String) (build : ConfigOption → ConfigOption) :
    Config :=
  let opts := minsert flag { emptyOption with flag := flag } cfg.options
  { cfg with options := mset flag (build ((mfind flag opts).getD { emptyOption with flag := flag })) opts }

/- ### Format validation and post-parse validation -/

/-- The duplicate-short-flag inner loop of `Config::checkFormat`
(`src/miniconf.cpp:552-558`). -/
def checkFormatDupScan (o : ConfigOption) : Config × LogLevel →
    List (String × ConfigOption) → Config × LogLevel
  | acc, [] => acc
  | acc, okv2 :: rest =>
    checkFormatDupScan o
      (if o.flag != okv2.2.flag && o.shortflag == okv2.2.shortflag && o.shortflag != "" then
        (acc.1.addLog .ERROR o.flag ("duplicate short flags (" ++ okv2.2.shortflag ++ ")"),
          worseLevel acc.2 .ERROR)
      else acc) rest

/-- The per-option outer loop of `Config::checkFormat`
(`src/miniconf.cpp:545-568`); `cfg0` supplies the full schema for the
inner duplicate scan. -/
def checkFormatScan (cfg0 : Config) : Config × LogLevel → List (String × ConfigOption) →
    Config × LogLevel
  | acc, [] => acc
  | acc, okv :: rest =>
    let o := okv.2
    let acc :=
      if !o.required && o.defaultValue.isEmpty then
        (acc.1.addLog .ERROR o.flag "default value is not defined", worseLevel acc.2 .ERROR)
      else acc
    let acc := checkFormatDupScan o acc cfg0.options
    let acc :=
      if o.descriptionText == "" then
        (acc.1.addLog .WARNING o.flag "no description text for argument",
          worseLevel acc.2 .WARNING)
      else acc
    let acc :=
      if o.shortflag == "" then
        (acc.1.addLog .WARNING o.flag "no short flag is provided", worseLevel acc.2 .WARNING)
      else acc
    checkFormatScan cfg0 acc rest

/-- `Config::checkFormat` (`src/miniconf.cpp:542-574`). -/
def Config.checkFormat (cfg : Config) : Config × LogLevel :=
  let acc := checkFormatScan cfg (cfg, LogLevel.INFO) cfg.options
  if cfg.descriptionStr == "" then
    (acc.1.addLog .WARNING "" "No program description text is provided",
      worseLevel acc.2 .WARNING)
  else acc

/-- The hidden-value purge opening `Config::validate`
(`src/miniconf.cpp:581-586`). -/
def purgeHidden : List (String × ConfigOption) → List (String × Value) →
    List (String × Value)
  | [], vals => vals
  | okv :: rest, vals =>
    purgeHidden rest (if okv.2.hidden && mcontains okv.1 vals then merase okv.1 vals else vals)

/-- The empty-value scan of `Config::validate` (`src/miniconf.cpp:589-594`). -/
def validateValuesScan : Config × LogLevel → List (String × Value) → Config × LogLevel
  | acc, [] => acc
  | acc, kv :: rest =>
    validateValuesScan
      (if kv.2.isEmpty then
        (acc.1.addLog .ERROR kv.1 "option contains invalid value", worseLevel acc.2 .ERROR)
      else acc) rest

/-- The undefined-option scan of `Config::validate`
(`src/miniconf.cpp:597-602`); `vals` is the (purged) resolved-value
store consulted by `contains`. -/
def validateOptionsScan (vals : List (String × Value)) : Config × LogLevel →
    List (String × ConfigOption) → Config × LogLevel
  | acc, [] => acc
  | acc, okv :: rest =>
    validateOptionsScan vals
      (if !(mcontains okv.1 vals) && !okv.2.hidden then
        (acc.1.addLog .ERROR okv.1 "option is undefined", worseLevel acc.2 .ERROR)
      else acc) rest

/-- `Config::validate` (`src/miniconf.cpp:577-604`): purge hidden values,
then report an ERROR for every empty resolved value and for every
non-hidden option missing from the resolved-value store. -/
def Config.validate (cfg : Config) : Config × LogLevel :=
  let cfg := { cfg with optionValues := purgeHidden cfg.options cfg.optionValues }
  validateOptionsScan cfg.optionValues
    (validateValuesScan (cfg, LogLevel.INFO) cfg.optionValues) cfg.options

/- ### Config-file merge (CSV and JSON) -/

/-- Modelled from the spec: picojson doubles are external to the core; a
JSON number is represented by the two observations the merge and serialize
code makes of it — its `static_cast<int>` truncation and its rendered
text. -/
structure JsonDouble where
  trunc : Int
  render : String
  deriving DecidableEq, Repr

/-- Modelled from the spec: the external picojson value tree (§4.9 — nested
objects with scalar leaves; arrays unsupported). -/
inductive Json
  | null
  | num (d : JsonDouble)
  | bool (b : Bool)
  | str (s : String)
  | arr (elems : List Json)
  | obj (fields : List (String × Json))

/-- `Config::getJSONValue` (`src/miniconf.cpp:1028-1061`). -/
def Config.getJSONValue (cfg : Config) (v : Json) (flag : String) : Config × Bool :=
  match mfind flag cfg.options with
  | some opt =>
    match v with
    | .num d =>
      if opt.type = DataType.INT then
        ({ cfg with optionValues := mset flag (Value.int d.trunc) cfg.optionValues }, true)
      else if opt.type = DataType.NUMBER then
        ({ cfg with optionValues := mset flag (Value.num d.render) cfg.optionValues }, true)
      else
        (cfg.addLog .WARNING flag ("Unable to parse the option from config file, flag = " ++ flag),
          false)
    | .bool b =>
      if opt.type = DataType.BOOL then
        ({ cfg with optionValues := mset flag (Value.bool b) cfg.optionValues }, true)
      else
        (cfg.addLog .WARNING flag ("Unable to parse the option from config file, flag = " ++ flag),
          false)
    | .str s =>
      if opt.type = DataType.STRING then
        ({ cfg with optionValues := mset flag (Value.str s) cfg.optionValues }, true)
      else
        (cfg.addLog .WARNING flag ("Unable to parse the option from config file, flag = " ++ flag),
          false)
    | _ =>
      (cfg.addLog .WARNING flag ("Unable to parse the option from config file, flag = " ++ flag),
        false)
  | none =>
    match v with
    | .num d => ({ cfg with optionValues := mset flag (Value.num d.render) cfg.optionValues }, true)
    | .bool b => ({ cfg with optionValues := mset flag (Value.bool b) cfg.optionValues }, true)
    | .str s => ({ cfg with optionValues := mset flag (Value.str s) cfg.optionValues }, true)
    | _ => (cfg.addLog .WARNING flag "Unable to parse the option from config file.", false)

mutual

/-- `Config::parseJSON` (`src/miniconf.cpp:1063-1081`).  Note the C++
`success = success && parseJSON(...)` short-circuits: after one failing
field the remaining fields are not visited. -/
def Config.parseJSON (cfg : Config) (v : Json) (flag : String) : Config × Bool :=
  match v with
  | .num d => cfg.getJSONValue (.num d) flag
  | .bool b => cfg.getJSONValue (.bool b) flag
  | .str s => cfg.getJSONValue (.str s) flag
  | .obj fields => parseJSONFields cfg fields flag
  | .arr _ => (cfg, false)
  | .null => (cfg.addLog .WARNING flag ("Unable to parse JSON, abort, flag = " ++ flag), false)

/-- The object-field loop of `Config::parseJSON`. -/
def parseJSONFields (cfg : Config) (fields : List (String × Json)) (flag : String) :
    Config × Bool :=
  match fields with
  | [] => (cfg, true)
  | item :: rest =>
    let r := cfg.parseJSON item.2 (flag ++ (if flag = "" then "" else ".") ++ item.1)
    if r.2 then parseJSONFields r.1 rest flag
    else (r.1, false)

end

/-- The `flag,value` cell-pair loop of `Config::loadCSV`
(`src/miniconf.cpp:1003-1022`), over the comma-separated fields of one
line.  The source's `success = false` sits after a `continue` and is
unreachable, so it has no counterpart in the loop body. -/
def loadCSVFields (cfg : Config) (success : Bool) : List String → Config × Bool
  | [] => (cfg, success)
  | [_] => (cfg, success)
  | sflag :: svalue :: rest =>
    if svalue = "" then loadCSVFields cfg success rest
    else
      let cfg :=
        match mfind sflag cfg.options with
        | some opt =>
          ({ cfg with optionValues := mset sflag (parseValue svalue opt.type) cfg.optionValues
            }).addLog .INFO sflag "value is loaded from config"
        | none =>
          ({ cfg with
              optionValues := mset sflag (parseValue svalue DataType.STRING) cfg.optionValues
            }).addLog .INFO sflag "value is not defined in config, parsed as a string value"
      loadCSVFields cfg success rest

/-- `Config::loadCSV` (`src/miniconf.cpp:992-1025`): line-oriented
`flag,value` pairs; blank lines skipped. -/
def Config.loadCSV (cfg : Config) (CSVStr : String) : Config × Bool :=
  (CSVStr.splitOn "\n").foldl
    (fun acc templine =>
      if templine = "" then acc
      else loadCSVFields acc.1 acc.2 (templine.splitOn ","))
    (cfg, true)

/-- `Config::loadJSON` (`src/miniconf.cpp:1083-1088`); `jp` stands in for
the external `picojson::parse`. -/
def Config.loadJSON (jp : String → Json) (cfg : Config) (JSONStr : String) : Config × Bool :=
  cfg.parseJSON (jp JSONStr) ""

/-- The text after the last `.` of a path (`find_last_of` + `substr`);
empty when the path has no dot. -/
def extensionOf (path : String) : String :=
  if path.data.contains '.' then
    String.mk ((path.data.reverse.takeWhile (fun c => c != '.')).reverse)
  else ""

/-- `Config::config` (`src/miniconf.cpp:959-990`).  Reading the file is
external I/O: `fs` maps a path to its contents, a missing or unreadable
file reading as "" (spec §5: it degrades to "no config merged"). -/
def Config.configLoad (fs : String → String) (jp : String → Json) (cfg : Config)
    (configPath : String) : Config × Bool :=
  let content := fs configPath
  let ext := extensionOf configPath
  if ext = "json" ∨ ext = "JSON" then cfg.loadJSON jp content
  else if ext = "csv" ∨ ext = "CSV" then cfg.loadCSV content
  else cfg.loadJSON jp content

/- ### The parse pipeline -/

/-- The transient `wildcard` option of `Config::parse`
(`src/miniconf.cpp:626-627`) after `wildcard.defaultValue("")` and
`wildcard.flag(strippedToken)`. -/
def wildcardOption (flag : String) : ConfigOption :=
  { emptyOption with flag := flag, defaultValue := Value.str "" }

/-- The token-walk state: the engine plus the `currentOption` cursor. -/
structure ParseState where
  cfg : Config
  cursor : Option ConfigOption

/-- The flag-resolution step of the token walk
(`src/miniconf.cpp:658-665`): resolve the cursor, or fall back to the
wildcard for an unrecognized long flag (with a warning), or leave it
unset (with a warning). -/
def parseFlagCursor (st : ParseState) (tok : String) : Config × Option ConfigOption :=
  match st.cfg.getOption tok (getTokenType tok) with
  | some o => (st.cfg, some o)
  | none =>
    let c := st.cfg.addLog .WARNING tok "unrecognized flag"
    if getTokenType tok = TokenType.FLAG then (c, some (wildcardOption (tok.drop 2)))
    else (c, none)

/-- A FLAG/SHORTFLAG iteration of the token walk
(`src/miniconf.cpp:657-669`), including the eager `true` for a resolved
Bool-typed cursor. -/
def parseFlagToken (st : ParseState) (tok : String) : ParseState :=
  match parseFlagCursor st tok with
  | (cfg1, some o) =>
    if o.type = DataType.BOOL then
      { cfg := { cfg1 with optionValues := mset o.flag (Value.bool true) cfg1.optionValues },
        cursor := some o }
    else { cfg := cfg1, cursor := some o }
  | (cfg1, none) => { cfg := cfg1, cursor := none }

/-- A VALUE iteration of the token walk (`src/miniconf.cpp:670-687`):
coerce against the cursor's declared type and store on success; warn on
coercion failure or a stray argument. -/
def parseValueToken (st : ParseState) (tok : String) : ParseState :=
  match st.cursor with
  | some o =>
    if (parseValue tok o.type).isEmpty then
      { cfg := st.cfg.addLog .WARNING tok "unvalid value type is provided", cursor := none }
    else
      { cfg := { st.cfg with
            optionValues := mset o.flag (parseValue tok o.type) st.cfg.optionValues
          }.addLog .INFO tok "value parsed successfully",
        cursor := none }
  | none => { st with cfg := st.cfg.addLog .WARNING tok "unassociated argument is not stored" }

/-- One iteration of the token walk in `Config::parse`
(`src/miniconf.cpp:653-689`). -/
def parseToken (st : ParseState) (tok : String) : ParseState :=
  if getTokenType tok = TokenType.UNKNOWN then
    { st with cfg := st.cfg.addLog .ERROR tok "unknown input" }
  else if getTokenType tok = TokenType.FLAG ∨ getTokenType tok = TokenType.SHORTFLAG then
    parseFlagToken st tok
  else parseValueToken st tok

/-- The executable-name extraction of `Config::parse`
(`src/miniconf.cpp:609-613`): the text after the last `\` or `/`. -/
def exeNameOf (argv0 : String) : String :=
  String.mk ((argv0.data.reverse.takeWhile (fun c => c != '\\' && c != '/')).reverse)

/-- The `--config`/`-cfg` pre-scan of `Config::parse`
(`src/miniconf.cpp:640-649`): every adjacent pair of a config flag and a
VALUE token triggers a file merge. -/
def configScan (fs : String → String) (jp : String → Json) : Config → List String → Config
  | cfg, [] => cfg
  | cfg, [_] => cfg
  | cfg, a :: b :: rest =>
    let cfg :=
      if (a = "--config" ∨ a = "-cfg") ∧ getTokenType b = TokenType.VALUE then
        (cfg.configLoad fs jp b).1
      else cfg
    configScan fs jp cfg (b :: rest)

/-- The remainder of `Config::parse` after a passed format check
(`src/miniconf.cpp:624-708`): set defaults, merge any config file named by
a `--config`/`-cfg` pair, walk the tokens, and run post-parse validation.
The help display only writes to a stream and has no state counterpart. -/
def Config.parseAfterFormat (fs : String → String) (jp : String → Json) (cfg : Config)
    (args : List String) : Config × Bool :=
  let cfg := cfg.setDefaultValues
  let cfg := if cfg.loadConfig then configScan fs jp cfg (args.drop 1) else cfg
  let st := (args.drop 1).foldl parseToken { cfg := cfg, cursor := none }
  let vres := st.cfg.validate
  if LogLevel.ERROR.toNat ≤ vres.2.toNat ∧ vres.1.logLevel.toNat ≤ LogLevel.ERROR.toNat then
    (vres.1, false)
  else (vres.1, true)

/-- `Config::parse` (`src/miniconf.cpp:606-709`).  `args` is the argv list
(program name first).  The "Fatal Error" banner only writes to an output
stream, so it has no state counterpart; `fs` and `jp` are the file-content
and picojson oracles. -/
def Config.parse (fs : String → String) (jp : String → Json) (cfg : Config)
    (args : List String) : Config × Bool :=
  let cfg := { cfg with exeName := exeNameOf (args.headD "") }
  let fmt := cfg.checkFormat
  if LogLevel.ERROR.toNat ≤ fmt.2.toNat ∧ fmt.1.logLevel.toNat ≤ LogLevel.ERROR.toNat then
    (fmt.1, false)
  else fmt.1.parseAfterFormat fs jp args

/- ### Reserved options, construction, enable toggles -/

/-- The auto-registered hidden `help` option (`src/miniconf.cpp:806-811`). -/
def helpOption : ConfigOption :=
  { flag := "help", shortflag := "h", descriptionText := "Display the help message",
    defaultValue := Value.bool false, required := false, hidden := true }

/-- The auto-registered hidden `config` option (`src/miniconf.cpp:789-794`). -/
def configFileOption : ConfigOption :=
  { flag := "config", shortflag := "cfg",
    descriptionText := "Input configuration file (JSON/CSV)",
    defaultValue := Value.str "", required := false, hidden := true }

/-- `Config::enableConfig` (`src/miniconf.cpp:786-801`).  Note that the
source tests `_autoHelp`, not the just-assigned `_loadConfig`. -/
def Config.enableConfig (cfg : Config) (enabled : Bool) : Config :=
  let cfg := { cfg with loadConfig := enabled }
  if cfg.autoHelp && !(cfg.findOption "config") then
    { cfg with options := minsert "config" configFileOption cfg.options }
  else if cfg.findOption "config" then
    { cfg with options := merase "config" cfg.options }
  else cfg

/-- `Config::enableHelp` (`src/miniconf.cpp:803-817`). -/
def Config.enableHelp (cfg : Config) (enabled : Bool) : Config :=
  let cfg := { cfg with autoHelp := enabled }
  if cfg.autoHelp && !(cfg.findOption "help") then
    { cfg with options := minsert "help" helpOption cfg.options }
  else if cfg.findOption "help" then
    { cfg with options := merase "help" cfg.options }
  else cfg

/-- The `Config()` constructor (`src/miniconf.cpp:368-378`). -/
def defaultConfig : Config :=
  (({ options := [], optionValues := [], logList := [], verbose := false,
      logLevel := LogLevel.WARNING, exeName := "", descriptionStr := "",
      autoHelp := true, loadConfig := true } : Config).enableHelp true).enableConfig true

/- ### Output: print rows and serialization -/

/-- The rows printed by `Config::print` (`src/miniconf.cpp:838-854`): name,
type text (starred when the key is not schema-backed), value text. -/
def Config.printRows (cfg : Config) : List (String × String × String) :=
  cfg.optionValues.map
    (fun v =>
      if mcontains v.1 cfg.options then (v.1, v.2.printType, v.2.print)
      else (v.1, v.2.printType ++ "*", v.2.print))

/-- One line of CSV serialization (`src/miniconf.cpp:934-944`): strings are
printed and then stripped of their surrounding quotes. -/
def csvLineOf (kv : String × Value) : String :=
  let val := kv.2.print
  let val :=
    if kv.2.type = DataType.STRING then
      if 2 ≤ val.data.length then String.mk (val.data.drop 1 |>.dropLast) else val
    else val
  kv.1 ++ "," ++ val ++ "\n"

/-- The CSV serialization of the resolved-value store. -/
def csvSerializeText (vals : List (String × Value)) : String :=
  String.join (vals.map csvLineOf)

/-- `Config::ExportFormat` (with `MINICONF_JSON_SUPPORT` defined, as in the
shipped header). -/
inductive ExportFormat
  | JSON
  | CSV
  deriving DecidableEq, Repr

/-- The format actually used by `Config::serialize`
(`src/miniconf.cpp:862-877`): the `format` argument is overwritten on
every path of the extension test. -/
def serializeFormatChoice (path : String) (format : ExportFormat) : ExportFormat :=
  let ext := extensionOf path
  if ext = "json" ∨ ext = "JSON" then ExportFormat.JSON
  else if ext = "csv" ∨ ext = "CSV" then ExportFormat.CSV
  else ExportFormat.CSV

/-- A `Value` as a picojson value for serialization
(`src/miniconf.cpp:902-910`): an empty value matches no branch and is not
inserted.  The truncation component of the stand-in double is never
observed during serialization; `0` is a placeholder. -/
def valueToJson : Value → Option Json
  | .int n => some (Json.num ⟨n, toString n⟩)
  | .num r => some (Json.num ⟨0, r⟩)
  | .bool b => some (Json.bool b)
  | .str s => some (Json.str s)
  | .unknown => none

/-- The nested-object insertion of the JSON serializer
(`src/miniconf.cpp:893-913`).  When an intermediate key holds a
non-object, the source's unchecked `get<picojson::object>()` is undefined
behaviour in the external library; this model replaces such a value with a
fresh object. -/
def insertPathJ (fields : List (String × Json)) (toks : List String) (v : Value) :
    List (String × Json) :=
  match toks with
  | [] => fields
  | [last] =>
    match valueToJson v with
    | some jv => mset last jv fields
    | none => fields
  | tk :: rest =>
    let sub :=
      match mfind tk fields with
      | some (Json.obj fs) => fs
      | _ => []
    mset tk (Json.obj (insertPathJ sub rest v)) fields

/-- The JSON object built by `Config::serialize`
(`src/miniconf.cpp:881-927`): dotted keys nest; a dot-free key is inserted
only when absent. -/
def jsonSerializeFields (vals : List (String × Value)) : List (String × Json) :=
  vals.foldl
    (fun fields v =>
      let toks := v.1.splitOn "."
      if 1 < toks.length then insertPathJ fields toks v.2
      else
        match mfind (toks.headD "") fields with
        | some _ => fields
        | none =>
          match valueToJson v.2 with
          | some jv => mset (toks.headD "") jv fields
          | none => fields)
    []

mutual

/-- Modelled from the spec: the external picojson `serialize` renders the
built tree as JSON text; the exact grammar is outside the core (spec §1).
A minimal renderer stands in for it. -/
def Json.render : Json → String
  | .null => "null"
  | .num d => d.render
  | .bool b => if b then "true" else "false"
  | .str s => "\x22" ++ s ++ "\x22"
  | .arr es => "[" ++ renderArr es ++ "]"
  | .obj fs => "\x7b" ++ renderFields fs ++ "\x7d"

/-- Array elements of the stand-in renderer. -/
def renderArr : List Json → String
  | [] => ""
  | [j] => j.render
  | j :: rest => j.render ++ "," ++ renderArr rest

/-- Object fields of the stand-in renderer. -/
def renderFields : List (String × Json) → String
  | [] => ""
  | [kv] => "\x22" ++ kv.1 ++ "\x22:" ++ kv.2.render
  | kv :: rest => "\x22" ++ kv.1 ++ "\x22:" ++ kv.2.render ++ "," ++ renderFields rest

end

/-- `Config::serialize` (`src/miniconf.cpp:856-957`).  The file write is
external I/O (silently skipped on an unopenable path); the function's
value is the serialized text, returned in all cases.  `pretty` is passed
to the external renderer only. -/
def Config.serialize (cfg : Config) (serializeFilePath : String) (format : ExportFormat)
    (pretty : Bool) : String :=
  let fm := serializeFormatChoice serializeFilePath format
  if fm = ExportFormat.JSON then (Json.obj (jsonSerializeFields cfg.optionValues)).render
  else csvSerializeText cfg.optionValues

/- ### Spec-side definitions and example configurations -/

/-- Spec-side token classification, written from the spec's sentence
(§4.5): empty → Unknown; a '-'-token fully consumed as a numeric literal →
Value; otherwise '--' → Flag, '-' → Shortflag; anything else → Value. -/
def tokenTypeSpec (t : String) : TokenType :=
  if t.data = [] then TokenType.UNKNOWN
  else if t.data.head? = some '-' then
    if strtodWhole t then TokenType.VALUE
    else if (t.data.drop 1).head? = some '-' then TokenType.FLAG
    else TokenType.SHORTFLAG
  else TokenType.VALUE

/-- Spec-side predicate: the entire token is an (optionally signed)
decimal integer — the claim's "full decimal integer scan". -/
def isFullDecInt (t : String) : Bool :=
  match t.data with
  | '-' :: rest => !rest.isEmpty && rest.all isDigitC
  | '+' :: rest => !rest.isEmpty && rest.all isDigitC
  | cs => !cs.isEmpty && cs.all isDigitC

/-- A file-system oracle with no readable files (every read degrades to
empty contents). -/
def emptyFs : String → String := fun _ => ""

/-- A picojson oracle for content that fails to parse (picojson leaves a
null value). -/
def nullJsonOracle : String → Json := fun _ => Json.null

/-- The spec's boolean-flag example schema: `defaultConfig` plus
`--verbose (Bool, default=false)`. -/
def verboseConfig : Config :=
  defaultConfig.registerOption "verbose" (fun o =>
    { o with
        shortflag := "v"
        descriptionText := "enable verbose output"
        defaultValue := Value.bool false })

/-- The spec's required-option example schema: `--count (Int, default=1)`
and `--name (Text, required)` — `name` has no default, hence an Absent
default value. -/
def exampleSchemaConfig : Config :=
  (defaultConfig.registerOption "count" (fun o =>
    { o with
        shortflag := "c"
        descriptionText := "a count"
        defaultValue := Value.int 1 })).registerOption "name" (fun o =>
    { o with
        shortflag := "n"
        descriptionText := "a name"
        required := true })

/-- A schema with a required option that HAS a (non-Absent) default:
`--count (Int, default=1, required)`. -/
def requiredWithDefaultConfig : Config :=
  defaultConfig.registerOption "count" (fun o =>
    { o with
        shortflag := "c"
        descriptionText := "a count"
        defaultValue := Value.int 1
        required := true })

/- ### Helper lemmas -/

theorem mfind_mset_self (k : String) (v : α) :
    ∀ m : List (String × α), mfind k (mset k v m) = some v
  | [] => by simp [mset, mfind]
  | (k', v') :: rest => by
    by_cases h : k = k'
    · simp [mset, h, mfind]
    · have h' : k' ≠ k := fun hh => h hh.symm
      cases h2 : strLtb k.data k'.data
      · simp [mset, h, h2, mfind, h', mfind_mset_self k v rest]
      · simp [mset, h, h2, mfind]

theorem mfind_mset_ne (k k' : String) (v : α) (hne : k' ≠ k) :
    ∀ m : List (String × α), mfind k (mset k' v m) = mfind k m
  | [] => by simp [mset, mfind, hne]
  | (k'', v'') :: rest => by
    by_cases h : k' = k''
    · have h3 : k'' ≠ k := fun hh => hne (h.trans hh)
      simp [mset, h, mfind, hne, h3]
    · cases h2 : strLtb k'.data k''.data
      · simp [mset, h, h2, mfind, mfind_mset_ne k k' v hne rest]
      · simp [mset, h, h2, mfind, hne]

theorem mfind_merase_self (k : String) (m : List (String × α)) :
    mfind k (merase k m) = none := by
  induction m with
  | nil => rfl
  | cons kv rest ih =>
    by_cases h : kv.1 = k
    · simpa [merase, h] using ih
    · simpa [merase, mfind, h] using ih

theorem mfind_merase_ne (k k' : String) (hne : k' ≠ k) (m : List (String × α)) :
    mfind k (merase k' m) = mfind k m := by
  induction m with
  | nil => rfl
  | cons kv rest ih =>
    by_cases h : kv.1 = k'
    · have hk : kv.1 ≠ k := fun hh => hne (h ▸ hh)
      rw [show mfind k (kv :: rest) = mfind k rest by simp [mfind, hk]]
      simpa [merase, h] using ih
    · have hb : (kv.1 != k') = true := bne_iff_ne.2 h
      have hkk : k ≠ k' := fun hh => hne hh.symm
      by_cases h2 : kv.1 = k
      · simp [merase, List.filter_cons, hb, mfind, h2, hkk]
      · simpa [merase, List.filter_cons, hb, mfind, h2, hkk] using ih

theorem mfind_eq_none (k : String) (m : List (String × α)) (h : ∀ kv ∈ m, kv.1 ≠ k) :
    mfind k m = none := by
  induction m with
  | nil => rfl
  | cons kv rest ih =>
    simp only [mfind, if_neg (h kv (by simp))]
    exact ih (fun kv' hm => h kv' (by simp [hm]))

theorem ne_of_mfind_eq_none (k : String) (m : List (String × α)) (h : mfind k m = none) :
    ∀ kv ∈ m, kv.1 ≠ k := by
  induction m with
  | nil => intro kv hm; cases hm
  | cons kv0 rest ih =>
    intro kv hm
    rcases List.mem_cons.1 hm with rfl | hm'
    · intro hk; rw [mfind, if_pos hk] at h; cases h
    · refine ih ?_ kv hm'
      by_cases hk0 : kv0.1 = k
      · rw [mfind, if_pos hk0] at h; cases h
      · rwa [mfind, if_neg hk0] at h

theorem addLog_optionValues (cfg : Config) (lv : LogLevel) (t m : String) :
    (cfg.addLog lv t m).optionValues = cfg.optionValues := by
  unfold Config.addLog; split <;> rfl

theorem addLog_options (cfg : Config) (lv : LogLevel) (t m : String) :
    (cfg.addLog lv t m).options = cfg.options := by
  unfold Config.addLog; split <;> rfl

theorem addLog_logLevel (cfg : Config) (lv : LogLevel) (t m : String) :
    (cfg.addLog lv t m).logLevel = cfg.logLevel := by
  unfold Config.addLog; split <;> rfl

theorem mem_addLog_of_mem (cfg : Config) (lv : LogLevel) (t m : String) (e : LogEntry)
    (h : e ∈ cfg.logList) : e ∈ (cfg.addLog lv t m).logList := by
  unfold Config.addLog; split
  · exact h
  · simpa using Or.inl h

theorem mem_addLog_self (cfg : Config) (lv : LogLevel) (t m : String)
    (h : cfg.logLevel.toNat ≤ lv.toNat) :
    (⟨lv, t, m⟩ : LogEntry) ∈ (cfg.addLog lv t m).logList := by
  unfold Config.addLog
  rw [if_neg (by omega)]
  simp

theorem foldl_preserve {σ β γ : Type _} (g : σ → γ) (step : σ → β → σ)
    (hstep : ∀ s b, g (step s b) = g s) :
    ∀ (l : List β) (init : σ), g (l.foldl step init) = g init
  | [], _ => rfl
  | b :: l, init => by
    rw [List.foldl_cons, foldl_preserve g step hstep l (step init b), hstep]

theorem foldl_pred {σ β : Type _} (P : σ → Prop) (step : σ → β → σ)
    (hstep : ∀ s b, P s → P (step s b)) :
    ∀ (l : List β) (init : σ), P init → P (l.foldl step init)
  | [], _, h => h
  | b :: l, init, h => foldl_pred P step hstep l (step init b) (hstep init b h)

theorem isSpaceC_eq_false_of_digit {c : Char} (h : isDigitC c = true) : isSpaceC c = false := by
  rcases Bool.eq_false_or_eq_true (isSpaceC c) with hs | hs
  · exfalso
    have hcs : c = ' ' ∨ c = '\t' ∨ c = '\n' ∨ c = '\x0b' ∨ c = '\x0c' ∨ c = '\r' := by
      simpa [isSpaceC, decide_eq_true_eq, or_assoc] using hs
    rcases hcs with rfl | rfl | rfl | rfl | rfl | rfl <;> exact absurd h (by decide)
  · exact hs

theorem ne_minus_of_digit {c : Char} (h : isDigitC c = true) : ¬(c = '-') := by
  rintro rfl; exact absurd h (by decide)

theorem ne_plus_of_digit {c : Char} (h : isDigitC c = true) : ¬(c = '+') := by
  rintro rfl; exact absurd h (by decide)

theorem takeWhile_append_all (p : Char → Bool) :
    ∀ (ds r : List Char), (∀ c ∈ ds, p c = true) → (∀ c ∈ r.head?, p c = false) →
      (ds ++ r).takeWhile p = ds
  | [], r, _, h2 => by
    cases r with
    | nil => rfl
    | cons c r' => simp [List.takeWhile_cons, h2 c rfl]
  | d :: ds', r, h1, h2 => by
    have hd := h1 d (by simp)
    simp [List.takeWhile_cons, hd,
      takeWhile_append_all p ds' r (fun c hc => h1 c (by simp [hc])) h2]

/- ### Claim C2: boolean coercion -/

/-- C2 counterexample: the claim says boolean coercion compares
case-insensitively, but "fAlse" — case-insensitively equal to "false" —
parses to `true`, because the source compares against exactly five literal
spellings. -/
theorem c2_counterexample :
    parseValue "fAlse" DataType.BOOL = Value.bool true
      ∧ asciiLower "fAlse" = asciiLower "false" := by
  exact ⟨by decide, by decide⟩

/-- C2 (amended): `parseValue(t, Bool)` returns `Value(false)` exactly when
`t` is one of the five literal spellings `false`, `False`, `FALSE`, `F`,
`f` (an exact, not case-insensitive, comparison), returns `Value(true)`
for every other token including garbage, and never returns an Absent
value. -/
theorem c2_bool_coercion (t : String) :
    (parseValue t DataType.BOOL = Value.bool false ↔
      t ∈ (["false", "False", "FALSE", "F", "f"] : List String))
      ∧ (t ∉ (["false", "False", "FALSE", "F", "f"] : List String) →
          parseValue t DataType.BOOL = Value.bool true)
      ∧ (parseValue t DataType.BOOL).isEmpty = false := by
  by_cases h1 : t = "false" <;> by_cases h2 : t = "False" <;> by_cases h3 : t = "FALSE" <;>
    by_cases h4 : t = "F" <;> by_cases h5 : t = "f" <;>
    simp [parseValue, Value.isEmpty, h1, h2, h3, h4, h5]

/-- C2 witness: the claim theorem applied at the garbage token "true0". -/
theorem c2_bool_coercion_witness :
    parseValue "true0" DataType.BOOL = Value.bool true :=
  (c2_bool_coercion "true0").2.1 (by decide)

/- ### Claim C3: integer coercion -/

/-- C3 counterexample: the claim says the Int coercion succeeds exactly
when the entire token is a decimal integer, but `parseValue("42abc", Int)`
returns `Value(42)` (not Absent) although "42abc" is not entirely a
decimal integer — `sscanf("%d")` is a prefix scan. -/
theorem c3_counterexample :
    parseValue "42abc" DataType.INT = Value.int 42
      ∧ isFullDecInt "42abc" = false
      ∧ (parseValue "42abc" DataType.INT).isEmpty = false := by
  exact ⟨by decide, by decide, by decide⟩

/-- C3 (amended): the Int coercion is a *prefix* decimal scan: a token
beginning with a digit run followed by a non-digit parses to the run's
value with the tail ignored; the result is Absent exactly when the
`sscanf("%d")` scan performs no conversion; and the spec's two examples
hold. -/
theorem c3_int_coercion :
    (∀ (ds r : List Char), ds ≠ [] → (∀ c ∈ ds, isDigitC c = true) →
        (∀ c ∈ r.head?, isDigitC c = false) →
        parseValue (String.mk (ds ++ r)) DataType.INT = Value.int (natOfDigits ds))
      ∧ (∀ t : String, ((parseValue t DataType.INT).isEmpty = true ↔ scanIntTok t.data = none))
      ∧ parseValue "42" DataType.INT = Value.int 42
      ∧ (parseValue "abc" DataType.INT).isEmpty = true := by
  refine ⟨?_, ?_, by decide, by decide⟩
  · intro ds r hne h1 h2
    cases ds with
    | nil => exact absurd rfl hne
    | cons d ds' =>
      have hd : isDigitC d = true := h1 d (by simp)
      have hsp : isSpaceC d = false := isSpaceC_eq_false_of_digit hd
      have hm : ¬(d = '-') := ne_minus_of_digit hd
      have hp : ¬(d = '+') := ne_plus_of_digit hd
      have htw : ((d :: ds') ++ r).takeWhile isDigitC = d :: ds' :=
        takeWhile_append_all isDigitC (d :: ds') r h1 h2
      have hscan : scanIntTok ((d :: ds') ++ r) = some ((natOfDigits (d :: ds') : Nat) : Int) := by
        unfold scanIntTok
        rw [List.cons_append, List.dropWhile_cons, if_neg (by simp [hsp])]
        simp only [hm, hp, if_neg, if_false]
        rw [← List.cons_append]
        unfold scanUnsigned
        have htw' : List.takeWhile isDigitC (d :: (ds' ++ r)) = d :: ds' := by
          rw [← List.cons_append]; exact htw
        simp [htw, htw', hd]
      show (match scanIntTok ((d :: ds') ++ r) with
        | some v => Value.int v
        | none => Value.unknown) = Value.int (natOfDigits (d :: ds'))
      rw [hscan]
  · intro t
    show ((match scanIntTok t.data with
      | some v => Value.int v
      | none => Value.unknown).isEmpty = true ↔ scanIntTok t.data = none)
    cases h : scanIntTok t.data <;> simp [h, Value.isEmpty]

/-- C3 witness: the prefix-scan clause applied at digits "42" followed by
"abc". -/
theorem c3_int_coercion_witness :
    parseValue (String.mk (['4', '2'] ++ ['a', 'b', 'c'])) DataType.INT =
      Value.int (natOfDigits ['4', '2']) :=
  c3_int_coercion.1 ['4', '2'] ['a', 'b', 'c'] (by decide) (by decide) (by decide)

/- ### Claim C4: token classification -/

/-- C4: `getTokenType` classifies exactly as the spec describes (the
spec-side `tokenTypeSpec` is written from the spec's sentence), and the
representative examples: empty → Unknown, negative numerals → Value,
`--`-tokens → Flag, other `-`-tokens → Shortflag, anything else → Value. -/
theorem c4_token_classification :
    (∀ t : String, getTokenType t = tokenTypeSpec t)
      ∧ getTokenType "" = TokenType.UNKNOWN
      ∧ getTokenType "-5" = TokenType.VALUE
      ∧ getTokenType "-5.5e1" = TokenType.VALUE
      ∧ getTokenType "--name" = TokenType.FLAG
      ∧ getTokenType "-n" = TokenType.SHORTFLAG
      ∧ getTokenType "-" = TokenType.SHORTFLAG
      ∧ getTokenType "abc" = TokenType.VALUE := by
  refine ⟨?_, by decide, by decide, by decide, by decide, by decide, by decide, by decide⟩
  intro t
  obtain ⟨cs⟩ := t
  cases cs with
  | nil => rfl
  | cons c0 rest =>
    by_cases h0 : c0 = '-'
    · subst h0
      cases rest with
      | nil => simp [getTokenType, tokenTypeSpec]
      | cons c1 rest' =>
        by_cases h1 : c1 = '-' <;>
          simp [getTokenType, tokenTypeSpec, h1]
    · simp [getTokenType, tokenTypeSpec, h0]

theorem mfind_eq_none_of_mcontains_false (k : String) (m : List (String × α))
    (h : mcontains k m = false) : mfind k m = none := by
  unfold mcontains at h
  cases hm : mfind k m with
  | none => rfl
  | some v => rw [hm] at h; cases h

theorem mem_of_mfind (k : String) (v : α) :
    ∀ m : List (String × α), mfind k m = some v → (k, v) ∈ m
  | [], h => by cases h
  | (k', v') :: rest, h => by
    by_cases hk : k' = k
    · subst hk
      rw [mfind, if_pos rfl] at h
      exact (Option.some.inj h) ▸ List.mem_cons_self _ _
    · rw [mfind, if_neg hk] at h
      exact List.mem_cons_of_mem _ (mem_of_mfind k v rest h)

theorem eq_of_mem_nodup_mfind (k : String) (v : α) :
    ∀ m : List (String × α), (m.map Prod.fst).Nodup → mfind k m = some v →
      ∀ kv ∈ m, kv.1 = k → kv.2 = v
  | [], _, h, _, hm, _ => by cases hm
  | (k', v') :: rest, hnd, h, kv, hm, hkv => by
    rcases List.mem_cons.1 hm with rfl | hm'
    · rw [mfind, if_pos hkv] at h
      exact Option.some.inj h
    · by_cases hk : k' = k
      · exfalso
        have : k ∈ rest.map Prod.fst := hkv ▸ List.mem_map_of_mem Prod.fst hm'
        exact (List.nodup_cons.1 hnd).1 (hk ▸ this)
      · rw [mfind, if_neg hk] at h
        exact eq_of_mem_nodup_mfind k v rest (List.nodup_cons.1 hnd).2 h kv hm' hkv

theorem mfind_purgeHidden_eq_none (f : String) :
    ∀ (options : List (String × ConfigOption)) (vals : List (String × Value)),
      mfind f vals = none → mfind f (purgeHidden options vals) = none
  | [], _, h => h
  | okv :: rest, vals, h => by
    unfold purgeHidden
    apply mfind_purgeHidden_eq_none f rest
    split
    · by_cases hk : okv.1 = f
      · rw [hk]; exact mfind_merase_self f vals
      · rw [mfind_merase_ne f okv.1 hk]; exact h
    · exact h

theorem mfind_purgeHidden_of_hidden (f : String) (o : ConfigOption) (ho : o.hidden = true) :
    ∀ (options : List (String × ConfigOption)) (vals : List (String × Value)),
      mfind f options = some o → mfind f (purgeHidden options vals) = none
  | [], _, h => by cases h
  | (k, ok) :: rest, vals, h => by
    by_cases hk : k = f
    · subst hk
      have hok : ok = o := by rw [mfind, if_pos rfl] at h; exact Option.some.inj h
      subst hok
      unfold purgeHidden
      apply mfind_purgeHidden_eq_none k rest
      rcases Bool.eq_false_or_eq_true (mcontains k vals) with hc | hc
      · rw [if_pos (by simp [ho, hc])]
        exact mfind_merase_self k vals
      · rw [if_neg (by simp [ho, hc])]
        exact mfind_eq_none_of_mcontains_false k vals hc
    · rw [mfind, if_neg hk] at h
      unfold purgeHidden
      exact mfind_purgeHidden_of_hidden f o ho rest _ h

theorem mfind_purgeHidden_not_hidden (f : String) :
    ∀ (options : List (String × ConfigOption)) (vals : List (String × Value)),
      (∀ kv ∈ options, kv.1 = f → kv.2.hidden = false) →
      mfind f (purgeHidden options vals) = mfind f vals
  | [], _, _ => rfl
  | okv :: rest, vals, h => by
    unfold purgeHidden
    rw [mfind_purgeHidden_not_hidden f rest _ (fun kv hm => h kv (List.mem_cons_of_mem _ hm))]
    split
    · rename_i hcond
      have hne : okv.1 ≠ f := by
        intro he
        rw [h okv (List.mem_cons_self _ _) he] at hcond
        cases hcond
      exact mfind_merase_ne f okv.1 hne vals
    · rfl

theorem validateValuesScan_pres (P : Config → Prop)
    (hP : ∀ cfg lv t m, P cfg → P (cfg.addLog lv t m)) :
    ∀ (l : List (String × Value)) (acc : Config × LogLevel),
      P acc.1 → P (validateValuesScan acc l).1
  | [], _, h => h
  | _ :: rest, acc, h => by
    unfold validateValuesScan
    apply validateValuesScan_pres P hP rest
    split
    · exact hP _ _ _ _ h
    · exact h

theorem validateOptionsScan_pres (vals : List (String × Value)) (P : Config → Prop)
    (hP : ∀ cfg lv t m, P cfg → P (cfg.addLog lv t m)) :
    ∀ (l : List (String × ConfigOption)) (acc : Config × LogLevel),
      P acc.1 → P (validateOptionsScan vals acc l).1
  | [], _, h => h
  | _ :: rest, acc, h => by
    unfold validateOptionsScan
    apply validateOptionsScan_pres vals P hP rest
    split
    · exact hP _ _ _ _ h
    · exact h

theorem validate_optionValues (cfg : Config) :
    (cfg.validate).1.optionValues = purgeHidden cfg.options cfg.optionValues := by
  unfold Config.validate
  exact validateOptionsScan_pres _
    (fun c => c.optionValues = purgeHidden cfg.options cfg.optionValues)
    (fun c lv t m h => (addLog_optionValues c lv t m).trans h) _ _
    (validateValuesScan_pres _
      (fun c lv t m h => (addLog_optionValues c lv t m).trans h) _ _ rfl)

theorem validate_options (cfg : Config) : (cfg.validate).1.options = cfg.options := by
  unfold Config.validate
  exact validateOptionsScan_pres _ (fun c => c.options = cfg.options)
    (fun c lv t m h => (addLog_options c lv t m).trans h) _ _
    (validateValuesScan_pres (fun c => c.options = cfg.options)
      (fun c lv t m h => (addLog_options c lv t m).trans h) _ _ rfl)

theorem validate_logLevel (cfg : Config) : (cfg.validate).1.logLevel = cfg.logLevel := by
  unfold Config.validate
  exact validateOptionsScan_pres _ (fun c => c.logLevel = cfg.logLevel)
    (fun c lv t m h => (addLog_logLevel c lv t m).trans h) _ _
    (validateValuesScan_pres (fun c => c.logLevel = cfg.logLevel)
      (fun c lv t m h => (addLog_logLevel c lv t m).trans h) _ _ rfl)

/- ### Claim C6: hidden options never survive validation -/

/-- C6: after `validate` runs, no key whose schema option is marked hidden
remains in the resolved-value store, and hence appears in no `print()`
row; in particular, after the default parse the auto-registered hidden
`help` and `config` keys are absent from the store and from the printed
rows. -/
theorem c6_hidden_purged (cfg : Config) (f : String) (o : ConfigOption)
    (hfind : mfind f cfg.options = some o) (hhid : o.hidden = true) :
    mfind f (cfg.validate).1.optionValues = none
      ∧ (∀ row ∈ (cfg.validate).1.printRows, row.1 ≠ f)
      ∧ mfind "help" (defaultConfig.parse emptyFs nullJsonOracle ["prog"]).1.optionValues = none
      ∧ mfind "config" (defaultConfig.parse emptyFs nullJsonOracle ["prog"]).1.optionValues = none
      ∧ (defaultConfig.parse emptyFs nullJsonOracle ["prog"]).1.printRows = [] := by
  have h1 : mfind f (cfg.validate).1.optionValues = none := by
    rw [validate_optionValues]
    exact mfind_purgeHidden_of_hidden f o hhid cfg.options cfg.optionValues hfind
  refine ⟨h1, ?_, by decide, by decide, by decide⟩
  intro row hrow
  unfold Config.printRows at hrow
  obtain ⟨kv, hkv, hg⟩ := List.mem_map.1 hrow
  have hne : kv.1 ≠ f := ne_of_mfind_eq_none f _ h1 kv hkv
  intro hre
  apply hne
  rw [← hre]
  split at hg <;> rw [← hg]

/-- C6 witness: the purge clause applied to the hidden `help` option of a
configuration whose store still holds both reserved keys. -/
theorem c6_hidden_purged_witness :
    mfind "help"
        (({ defaultConfig with
            optionValues := [("config", Value.str ""), ("help", Value.bool false)] } :
          Config).validate).1.optionValues = none :=
  (c6_hidden_purged _ "help" helpOption (by decide) (by decide)).1

/- ### Claim C7: parse-level error handling -/

/-- C7 counterexample: an unclassifiable token (the empty string) is
logged at ERROR severity, while the claim says parse-level errors are
logged as WARNING. -/
theorem c7_counterexample :
    (parseToken ⟨defaultConfig, none⟩ "").cfg.logList =
        [⟨LogLevel.ERROR, "", "unknown input"⟩]
      ∧ getTokenType "" = TokenType.UNKNOWN := by
  exact ⟨by decide, by decide⟩

/-- C7 (amended): a value token that fails coercion against the cursor
option's type is logged at WARNING and merely clears the cursor — no value
is stored and the walk continues with the next token; an unclassifiable
token is logged at ERROR (not WARNING) and changes nothing else — neither
interrupts the walk or the parse. -/
theorem c7_parse_error_handling :
    (∀ (st : ParseState) (tok : String) (o : ConfigOption),
        getTokenType tok = TokenType.VALUE → st.cursor = some o →
        (parseValue tok o.type).isEmpty = true →
        parseToken st tok =
          { cfg := st.cfg.addLog .WARNING tok "unvalid value type is provided",
            cursor := none })
      ∧ (∀ (st : ParseState) (tok : String),
          getTokenType tok = TokenType.UNKNOWN →
          parseToken st tok = { st with cfg := st.cfg.addLog .ERROR tok "unknown input" })
      ∧ (∀ (cfg : Config) (lv : LogLevel) (t m : String),
          (cfg.addLog lv t m).optionValues = cfg.optionValues) := by
  refine ⟨?_, ?_, addLog_optionValues⟩
  · intro st tok o hv hcur hempty
    unfold parseToken parseValueToken
    rw [hv, hcur]
    simp [hempty]
  · intro st tok h
    unfold parseToken
    rw [h]
    simp

/-- C7 witness: the unknown-token clause applied at the empty token in the
default configuration. -/
theorem c7_parse_error_handling_witness :
    parseToken ⟨defaultConfig, none⟩ "" =
      { cfg := defaultConfig.addLog .ERROR "" "unknown input", cursor := none } :=
  c7_parse_error_handling.2.1 ⟨defaultConfig, none⟩ "" (by decide)

/- ### Claim C5: eager true for boolean flags -/

/-- C5: immediately after a flag token resolves the cursor to a Bool-typed
option, that option's resolved value is set to true; and end-to-end, with
schema `{--verbose (Bool, default=false)}` and arguments
`["prog", "--verbose"]` (no trailing value token), parse succeeds and
`verbose` resolves to true. -/
theorem c5_bool_flag_eager (st : ParseState) (tok : String) (o : ConfigOption)
    (htt : getTokenType tok = TokenType.FLAG ∨ getTokenType tok = TokenType.SHORTFLAG)
    (hres : st.cfg.getOption tok (getTokenType tok) = some o)
    (hbool : o.type = DataType.BOOL) :
    mfind o.flag (parseToken st tok).cfg.optionValues = some (Value.bool true)
      ∧ (verboseConfig.parse emptyFs nullJsonOracle ["prog", "--verbose"]).2 = true
      ∧ mfind "verbose"
          (verboseConfig.parse emptyFs nullJsonOracle ["prog", "--verbose"]).1.optionValues
          = some (Value.bool true) := by
  refine ⟨?_, by decide, by decide⟩
  unfold parseToken parseFlagToken parseFlagCursor
  rcases htt with h | h <;> rw [h] at hres <;> simp [h, hres, hbool, mfind_mset_self]

/-- C5 witness: the eager-true clause applied at the `--verbose` token in
the example configuration. -/
theorem c5_bool_flag_eager_witness :
    mfind "verbose" (parseToken ⟨verboseConfig, none⟩ "--verbose").cfg.optionValues
      = some (Value.bool true) :=
  (c5_bool_flag_eager ⟨verboseConfig, none⟩ "--verbose"
    { flag := "verbose", shortflag := "v", descriptionText := "enable verbose output",
      defaultValue := Value.bool false, required := false, hidden := false }
    (Or.inl (by decide)) (by decide) (by decide)).1

/- ### Claim C8: serialization format choice -/

/-- C8 counterexample: with no path extension the claim says the explicit
format argument (here JSON) is used, but serialize overwrites it: the
chosen format is CSV and the returned text is the CSV serialization. -/
theorem c8_counterexample :
    serializeFormatChoice "output" ExportFormat.JSON = ExportFormat.CSV
      ∧ defaultConfig.serialize "output" ExportFormat.JSON true =
          csvSerializeText defaultConfig.optionValues := by
  exact ⟨by decide, by decide⟩

/-- C8 (amended): serialize chooses JSON exactly when the path's extension
is `json`/`JSON`; on every other path — a different extension or none at
all — it uses CSV regardless of the explicit format argument; and the
serialized text of the chosen format is returned in all cases. -/
theorem c8_serialize_format (cfg : Config) (path : String) (format : ExportFormat)
    (pretty : Bool) :
    serializeFormatChoice path format =
        (if extensionOf path = "json" ∨ extensionOf path = "JSON" then ExportFormat.JSON
          else ExportFormat.CSV)
      ∧ cfg.serialize path format pretty =
          (if serializeFormatChoice path format = ExportFormat.JSON then
            (Json.obj (jsonSerializeFields cfg.optionValues)).render
          else csvSerializeText cfg.optionValues) := by
  constructor
  · unfold serializeFormatChoice
    by_cases h1 : extensionOf path = "json" ∨ extensionOf path = "JSON"
    · simp [h1]
    · by_cases h2 : extensionOf path = "csv" ∨ extensionOf path = "CSV" <;> simp [h1, h2]
  · unfold Config.serialize
    by_cases h : serializeFormatChoice path format = ExportFormat.JSON <;> simp [h]

/- ### Claim C9: the enableConfig / enableHelp toggles -/

/-- C9, evaluated at the failing input: the first `enableConfig(false)`
does remove the reserved option, but a second `enableConfig(false)` — a
call on a schema lacking `config` while `_autoHelp` is true — REintroduces
the hidden `config` option even though config-loading stays disabled,
because the source tests `_autoHelp` instead of the just-assigned
`_loadConfig`.  So after that call the schema does contain the reserved
option, against the claim.  `enableHelp(false)`, which tests the correct
member, behaves as claimed on both calls. -/
theorem c9_enableConfig_bug :
    (defaultConfig.enableConfig false).findOption "config" = false
      ∧ ((defaultConfig.enableConfig false).enableConfig false).findOption "config" = true
      ∧ mfind "config" ((defaultConfig.enableConfig false).enableConfig false).options
          = some configFileOption
      ∧ ((defaultConfig.enableConfig false).enableConfig false).loadConfig = false
      ∧ (defaultConfig.enableHelp false).findOption "help" = false
      ∧ ((defaultConfig.enableHelp false).enableHelp false).findOption "help" = false := by
  exact ⟨by decide, by decide, by decide, by decide, by decide, by decide⟩

/- ### Claim C10: the loadCSV return value -/

theorem loadCSVFields_success : ∀ (cfg : Config) (b : Bool) (fields : List String),
    (loadCSVFields cfg b fields).2 = b
  | _, _, [] => rfl
  | _, _, [_] => rfl
  | cfg, b, _ :: v :: rest => by
    unfold loadCSVFields
    by_cases h : v = ""
    · rw [if_pos h]; exact loadCSVFields_success cfg b rest
    · rw [if_neg h]; exact loadCSVFields_success _ b rest

/-- C10: `loadCSV` returns true on every input string and in every engine
state: its `success` flag is initialized to true and the only
`success = false` assignment sits after a `continue`, so it is unreachable
and CSV config-file loading never reports failure through its return
value. -/
theorem c10_loadCSV_always_true (cfg : Config) (s : String) :
    (cfg.loadCSV s).2 = true := by
  unfold Config.loadCSV
  have h : ∀ (lines : List String) (acc : Config × Bool),
      (lines.foldl (fun acc templine =>
        if templine = "" then acc else loadCSVFields acc.1 acc.2 (templine.splitOn ",")) acc).2
        = acc.2 := by
    intro lines
    induction lines with
    | nil => intro acc; rfl
    | cons l ls ih =>
      intro acc
      rw [List.foldl_cons]
      by_cases hl : l = ""
      · rw [if_pos hl]; exact ih acc
      · rw [if_neg hl, ih, loadCSVFields_success]
  exact h _ _

/- ### Claim C1: lemmas about levels, scans and the token walk -/

theorem addLog_loadConfig (cfg : Config) (lv : LogLevel) (t m : String) :
    (cfg.addLog lv t m).loadConfig = cfg.loadConfig := by
  unfold Config.addLog; split <;> rfl

theorem le_worseLevel_left (a b : LogLevel) : a.toNat ≤ (worseLevel a b).toNat := by
  unfold worseLevel; split <;> omega

theorem le_worseLevel_right (a b : LogLevel) : b.toNat ≤ (worseLevel a b).toNat := by
  unfold worseLevel; split <;> omega

theorem validateValuesScan_level_mono :
    ∀ (l : List (String × Value)) (acc : Config × LogLevel),
      acc.2.toNat ≤ (validateValuesScan acc l).2.toNat
  | [], _ => le_refl _
  | _ :: rest, acc => by
    unfold validateValuesScan
    refine le_trans ?_ (validateValuesScan_level_mono rest _)
    split
    · exact le_worseLevel_left _ _
    · exact le_refl _

theorem validateOptionsScan_level_mono (vals : List (String × Value)) :
    ∀ (l : List (String × ConfigOption)) (acc : Config × LogLevel),
      acc.2.toNat ≤ (validateOptionsScan vals acc l).2.toNat
  | [], _ => le_refl _
  | _ :: rest, acc => by
    unfold validateOptionsScan
    refine le_trans ?_ (validateOptionsScan_level_mono vals rest _)
    split
    · exact le_worseLevel_left _ _
    · exact le_refl _

theorem validateValuesScan_hits (f : String) (v : Value) (hv : v.isEmpty = true) :
    ∀ (l : List (String × Value)) (acc : Config × LogLevel),
      (f, v) ∈ l → acc.1.logLevel.toNat ≤ LogLevel.ERROR.toNat →
      LogLevel.ERROR.toNat ≤ (validateValuesScan acc l).2.toNat
        ∧ (⟨.ERROR, f, "option contains invalid value"⟩ : LogEntry)
            ∈ (validateValuesScan acc l).1.logList
  | [], _, hm, _ => by cases hm
  | kv :: rest, acc, hm, hll => by
    unfold validateValuesScan
    rcases List.mem_cons.1 hm with heq | hm'
    · subst heq
      rw [if_pos hv]
      constructor
      · refine le_trans (le_worseLevel_right acc.2 .ERROR) ?_
        exact validateValuesScan_level_mono rest
          (acc.1.addLog .ERROR (f, v).1 "option contains invalid value",
            worseLevel acc.2 .ERROR)
      · refine validateValuesScan_pres
          (fun c => (⟨.ERROR, f, "option contains invalid value"⟩ : LogEntry) ∈ c.logList)
          (fun c lv t m h => mem_addLog_of_mem c lv t m _ h) rest _ ?_
        exact mem_addLog_self acc.1 .ERROR f "option contains invalid value" hll
    · refine validateValuesScan_hits f v hv rest _ hm' ?_
      split
      · rw [addLog_logLevel]; exact hll
      · exact hll

theorem validate_reports_empty (cfg : Config) (f : String) (v : Value)
    (hmem : mfind f (purgeHidden cfg.options cfg.optionValues) = some v)
    (hv : v.isEmpty = true)
    (hlog : cfg.logLevel.toNat ≤ LogLevel.ERROR.toNat) :
    LogLevel.ERROR.toNat ≤ (cfg.validate).2.toNat
      ∧ (⟨.ERROR, f, "option contains invalid value"⟩ : LogEntry)
          ∈ (cfg.validate).1.logList := by
  unfold Config.validate
  have hin : (f, v) ∈ purgeHidden cfg.options cfg.optionValues := mem_of_mfind f v _ hmem
  have h1 := validateValuesScan_hits f v hv (purgeHidden cfg.options cfg.optionValues)
    ({ cfg with optionValues := purgeHidden cfg.options cfg.optionValues }, LogLevel.INFO)
    hin hlog
  exact ⟨le_trans h1.1 (validateOptionsScan_level_mono _ _ _),
    validateOptionsScan_pres _
      (fun c => (⟨.ERROR, f, "option contains invalid value"⟩ : LogEntry) ∈ c.logList)
      (fun c lv t m h => mem_addLog_of_mem c lv t m _ h) _ _ h1.2⟩

theorem addLog_step_pres (P : Config → Prop)
    (hP : ∀ cfg lv t m, P cfg → P (cfg.addLog lv t m))
    (c : Prop) [Decidable c] (acc : Config × LogLevel) (lv : LogLevel) (t m : String)
    (h : P acc.1) :
    P (if c then (acc.1.addLog lv t m, worseLevel acc.2 lv) else acc).1 := by
  split
  · exact hP _ _ _ _ h
  · exact h

theorem checkFormatDupScan_pres (o : ConfigOption) (P : Config → Prop)
    (hP : ∀ cfg lv t m, P cfg → P (cfg.addLog lv t m)) :
    ∀ (l : List (String × ConfigOption)) (acc : Config × LogLevel),
      P acc.1 → P (checkFormatDupScan o acc l).1
  | [], _, h => h
  | _ :: rest, acc, h => by
    unfold checkFormatDupScan
    apply checkFormatDupScan_pres o P hP rest
    split
    · exact hP _ _ _ _ h
    · exact h

theorem checkFormatScan_pres (cfg0 : Config) (P : Config → Prop)
    (hP : ∀ cfg lv t m, P cfg → P (cfg.addLog lv t m)) :
    ∀ (l : List (String × ConfigOption)) (acc : Config × LogLevel),
      P acc.1 → P (checkFormatScan cfg0 acc l).1
  | [], _, h => h
  | okv :: rest, acc, h => by
    unfold checkFormatScan
    exact checkFormatScan_pres cfg0 P hP rest _
      (addLog_step_pres P hP _ _ _ _ _
        (addLog_step_pres P hP _ _ _ _ _
          (checkFormatDupScan_pres okv.2 P hP cfg0.options _
            (addLog_step_pres P hP _ _ _ _ _ h))))

theorem checkFormat_pres (cfg : Config) (P : Config → Prop)
    (hP : ∀ c lv t m, P c → P (c.addLog lv t m)) (h : P cfg) : P (cfg.checkFormat).1 := by
  unfold Config.checkFormat
  split
  · exact hP _ _ _ _ (checkFormatScan_pres cfg P hP cfg.options _ h)
  · exact checkFormatScan_pres cfg P hP cfg.options _ h

theorem setDefaultsScan_no_key (f : String) :
    ∀ (opts : List (String × ConfigOption)) (vals : List (String × Value)),
      (∀ kv ∈ opts, kv.1 ≠ f) → mfind f (setDefaultsScan vals opts) = mfind f vals
  | [], _, _ => rfl
  | okv :: rest, vals, h => by
    unfold setDefaultsScan
    rw [setDefaultsScan_no_key f rest _ (fun kv hm => h kv (List.mem_cons_of_mem _ hm)),
      mfind_mset_ne f okv.1 okv.2.defaultValue (h okv (List.mem_cons_self _ _)) vals]

theorem setDefaultsScan_mfind (f : String) (o : ConfigOption) :
    ∀ (opts : List (String × ConfigOption)) (vals : List (String × Value)),
      mfind f opts = some o → (opts.map Prod.fst).Nodup →
      mfind f (setDefaultsScan vals opts) = some o.defaultValue
  | [], _, h, _ => by cases h
  | (k, ok) :: rest, vals, h, hnd => by
    unfold setDefaultsScan
    by_cases hk : k = f
    · subst hk
      have ho : ok = o := by rw [mfind, if_pos rfl] at h; exact Option.some.inj h
      subst ho
      have hrest : ∀ kv ∈ rest, kv.1 ≠ k := by
        intro kv hm he
        have hmm : kv.1 ∈ rest.map Prod.fst := List.mem_map_of_mem Prod.fst hm
        rw [he] at hmm
        exact (List.nodup_cons.1 hnd).1 hmm
      rw [setDefaultsScan_no_key k rest _ hrest]
      exact mfind_mset_self k ok.defaultValue vals
    · rw [mfind, if_neg hk] at h
      exact setDefaultsScan_mfind f o rest _ h (List.nodup_cons.1 hnd).2

theorem configScan_noop (fs : String → String) (jp : String → Json) :
    ∀ (toks : List String) (cfg : Config),
      (∀ a ∈ toks, a ≠ "--config" ∧ a ≠ "-cfg") → configScan fs jp cfg toks = cfg
  | [], _, _ => rfl
  | [_], _, _ => rfl
  | a :: b :: rest, cfg, h => by
    show configScan fs jp
        (if (a = "--config" ∨ a = "-cfg") ∧ getTokenType b = TokenType.VALUE then
          (cfg.configLoad fs jp b).1
        else cfg) (b :: rest) = cfg
    have hc : ¬((a = "--config" ∨ a = "-cfg") ∧ getTokenType b = TokenType.VALUE) := by
      rintro ⟨h1 | h1, _⟩
      · exact (h a (List.mem_cons_self _ _)).1 h1
      · exact (h a (List.mem_cons_self _ _)).2 h1
    rw [if_neg hc]
    exact configScan_noop fs jp (b :: rest) cfg (fun x hx => h x (List.mem_cons_of_mem _ hx))

theorem getOption_some (cfg : Config) (tok : String) (tt : TokenType) (o : ConfigOption)
    (hWF : ∀ kv ∈ cfg.options, kv.2.flag = kv.1)
    (h : cfg.getOption tok tt = some o) :
    mfind o.flag cfg.options = some o ∧ o.flag ≠ "" := by
  unfold Config.getOption at h
  by_cases he : getOptionFlagStr cfg tok tt = ""
  · rw [if_pos he] at h; cases h
  · rw [if_neg he] at h
    have hmem := mem_of_mfind _ o cfg.options h
    have hfl : o.flag = getOptionFlagStr cfg tok tt := hWF _ hmem
    rw [hfl]; exact ⟨h, he⟩

theorem getOption_none_flag (cfg : Config) (tok : String)
    (h : cfg.getOption tok TokenType.FLAG = none) :
    tok.drop 2 = "" ∨ mfind (tok.drop 2) cfg.options = none := by
  unfold Config.getOption at h
  by_cases he : getOptionFlagStr cfg tok TokenType.FLAG = ""
  · left; simpa [getOptionFlagStr] using he
  · right
    rw [if_neg he] at h
    simpa [getOptionFlagStr] using h

theorem Value.eq_unknown_of_isEmpty : ∀ {v : Value}, v.isEmpty = true → v = Value.unknown
  | .unknown, _ => rfl
  | .int _, h => by cases h
  | .num _, h => by cases h
  | .bool _, h => by cases h
  | .str _, h => by cases h

theorem type_unknown_of_default_empty {o : ConfigOption}
    (h : o.defaultValue.isEmpty = true) : o.type = DataType.UNKNOWN := by
  unfold ConfigOption.type
  rw [Value.eq_unknown_of_isEmpty h]
  rfl

theorem parseValue_unknown_target (t : String) :
    parseValue t DataType.UNKNOWN = Value.unknown := rfl

theorem parseFlagToken_of_some (st : ParseState) (tok : String) (o : ConfigOption)
    (hres : st.cfg.getOption tok (getTokenType tok) = some o) :
    parseFlagToken st tok =
      (if o.type = DataType.BOOL then
        { cfg := { st.cfg with optionValues := mset o.flag (Value.bool true) st.cfg.optionValues },
          cursor := some o }
      else { cfg := st.cfg, cursor := some o }) := by
  unfold parseFlagToken parseFlagCursor
  rw [hres]

theorem parseFlagToken_of_none (st : ParseState) (tok : String)
    (hres : st.cfg.getOption tok (getTokenType tok) = none) :
    parseFlagToken st tok =
      (if getTokenType tok = TokenType.FLAG then
        { cfg := st.cfg.addLog .WARNING tok "unrecognized flag",
          cursor := some (wildcardOption (tok.drop 2)) }
      else { cfg := st.cfg.addLog .WARNING tok "unrecognized flag", cursor := none }) := by
  unfold parseFlagToken parseFlagCursor
  rw [hres]
  by_cases hp : getTokenType tok = TokenType.FLAG
  · simp [hp, wildcardOption, emptyOption, ConfigOption.type, Value.type]
  · simp [hp]

theorem parseValueToken_of_some (st : ParseState) (tok : String) (o : ConfigOption)
    (hcur : st.cursor = some o) :
    parseValueToken st tok =
      (if (parseValue tok o.type).isEmpty then
        { cfg := st.cfg.addLog .WARNING tok "unvalid value type is provided", cursor := none }
      else
        { cfg := { st.cfg with
              optionValues := mset o.flag (parseValue tok o.type) st.cfg.optionValues
            }.addLog .INFO tok "value parsed successfully",
          cursor := none }) := by
  unfold parseValueToken
  rw [hcur]

theorem parseValueToken_of_none (st : ParseState) (tok : String) (hcur : st.cursor = none) :
    parseValueToken st tok =
      { st with cfg := st.cfg.addLog .WARNING tok "unassociated argument is not stored" } := by
  unfold parseValueToken
  rw [hcur]

theorem parseToken_inv (OPTS : List (String × ConfigOption)) (LL : LogLevel)
    (f : String) (o0 : ConfigOption)
    (hf : mfind f OPTS = some o0) (hdef : o0.defaultValue.isEmpty = true) (hfne : f ≠ "")
    (hWF : ∀ kv ∈ OPTS, kv.2.flag = kv.1)
    (st : ParseState) (tok : String)
    (hA : st.cfg.options = OPTS) (hB : st.cfg.logLevel = LL)
    (hC : ∃ v, mfind f st.cfg.optionValues = some v ∧ v.isEmpty = true)
    (hD : ∀ o ∈ st.cursor, o.flag = f → o.defaultValue.isEmpty = true) :
    (parseToken st tok).cfg.options = OPTS
      ∧ (parseToken st tok).cfg.logLevel = LL
      ∧ (∃ v, mfind f (parseToken st tok).cfg.optionValues = some v ∧ v.isEmpty = true)
      ∧ (∀ o ∈ (parseToken st tok).cursor, o.flag = f → o.defaultValue.isEmpty = true) := by
  have hWF' : ∀ kv ∈ st.cfg.options, kv.2.flag = kv.1 := by rw [hA]; exact hWF
  have hf' : mfind f st.cfg.options = some o0 := by rw [hA]; exact hf
  have hres_eq : ∀ (tt : TokenType) (o : ConfigOption), st.cfg.getOption tok tt = some o →
      o.flag = f → o = o0 := by
    intro tt o hres hne
    have hp := getOption_some st.cfg tok tt o hWF' hres
    rw [hne, hf'] at hp
    exact (Option.some.inj hp.1).symm
  unfold parseToken
  by_cases h1 : getTokenType tok = TokenType.UNKNOWN
  · rw [if_pos h1]
    obtain ⟨v, hv1, hv2⟩ := hC
    exact ⟨(addLog_options _ _ _ _).trans hA, (addLog_logLevel _ _ _ _).trans hB,
      ⟨v, by rw [addLog_optionValues]; exact hv1, hv2⟩, hD⟩
  · rw [if_neg h1]
    by_cases h2 : getTokenType tok = TokenType.FLAG ∨ getTokenType tok = TokenType.SHORTFLAG
    · rw [if_pos h2]
      cases hres : st.cfg.getOption tok (getTokenType tok) with
      | some o =>
        rw [parseFlagToken_of_some st tok o hres]
        by_cases hofl : o.flag = f
        · have ho0 : o = o0 := hres_eq _ o hres hofl
          have htype : o.type = DataType.UNKNOWN := by
            rw [ho0]; exact type_unknown_of_default_empty hdef
          rw [if_neg (by rw [htype]; intro hcon; cases hcon)]
          refine ⟨hA, hB, hC, ?_⟩
          intro o' ho' _
          have heq : o = o' := Option.some.inj (Option.mem_def.1 ho')
          rw [← heq, ho0]; exact hdef
        · by_cases hbool : o.type = DataType.BOOL
          · rw [if_pos hbool]
            refine ⟨hA, hB, ?_, ?_⟩
            · obtain ⟨v, hv1, hv2⟩ := hC
              exact ⟨v, by rw [mfind_mset_ne f o.flag _ hofl]; exact hv1, hv2⟩
            · intro o' ho' hfl'
              have heq : o = o' := Option.some.inj (Option.mem_def.1 ho')
              exact absurd (heq ▸ hfl') hofl
          · rw [if_neg hbool]
            refine ⟨hA, hB, hC, ?_⟩
            intro o' ho' hfl'
            have heq : o = o' := Option.some.inj (Option.mem_def.1 ho')
            exact absurd (heq ▸ hfl') hofl
      | none =>
        rw [parseFlagToken_of_none st tok hres]
        by_cases hflag : getTokenType tok = TokenType.FLAG
        · rw [if_pos hflag]
          obtain ⟨v, hv1, hv2⟩ := hC
          refine ⟨(addLog_options _ _ _ _).trans hA, (addLog_logLevel _ _ _ _).trans hB,
            ⟨v, by rw [addLog_optionValues]; exact hv1, hv2⟩, ?_⟩
          intro o' ho' hfl'
          exfalso
          have heq : wildcardOption (tok.drop 2) = o' :=
            Option.some.inj (Option.mem_def.1 ho')
          have hdropf : tok.drop 2 = f := by rw [← hfl', ← heq]; rfl
          rw [hflag] at hres
          rcases getOption_none_flag st.cfg tok hres with hemp | hnone
          · exact hfne (hdropf ▸ hemp)
          · rw [hdropf, hf'] at hnone; cases hnone
        · rw [if_neg hflag]
          obtain ⟨v, hv1, hv2⟩ := hC
          refine ⟨(addLog_options _ _ _ _).trans hA, (addLog_logLevel _ _ _ _).trans hB,
            ⟨v, by rw [addLog_optionValues]; exact hv1, hv2⟩, ?_⟩
          intro o' ho' _
          exact absurd ho' (by simp)
    · rw [if_neg h2]
      cases hcur : st.cursor with
      | none =>
        rw [parseValueToken_of_none st tok hcur]
        obtain ⟨v, hv1, hv2⟩ := hC
        refine ⟨(addLog_options _ _ _ _).trans hA, (addLog_logLevel _ _ _ _).trans hB,
          ⟨v, by rw [addLog_optionValues]; exact hv1, hv2⟩, ?_⟩
        intro o' ho' _
        rw [show ({ st with
            cfg := st.cfg.addLog .WARNING tok "unassociated argument is not stored" } :
          ParseState).cursor = st.cursor from rfl, hcur] at ho'
        exact absurd ho' (by simp)
      | some o =>
        rw [parseValueToken_of_some st tok o hcur]
        by_cases hval : (parseValue tok o.type).isEmpty = true
        · rw [if_pos hval]
          obtain ⟨v, hv1, hv2⟩ := hC
          refine ⟨(addLog_options _ _ _ _).trans hA, (addLog_logLevel _ _ _ _).trans hB,
            ⟨v, by rw [addLog_optionValues]; exact hv1, hv2⟩, ?_⟩
          intro o' ho' _
          exact absurd ho' (by simp)
        · have hofl : o.flag ≠ f := by
            intro he
            have hde : o.defaultValue.isEmpty = true := hD o (Option.mem_def.2 hcur) he
            rw [type_unknown_of_default_empty hde, parseValue_unknown_target] at hval
            exact hval rfl
          rw [if_neg hval]
          obtain ⟨v, hv1, hv2⟩ := hC
          refine ⟨(addLog_options _ _ _ _).trans hA, (addLog_logLevel _ _ _ _).trans hB,
            ⟨v, ?_, hv2⟩, ?_⟩
          · rw [addLog_optionValues]
            show mfind f (mset o.flag (parseValue tok o.type) st.cfg.optionValues) = some v
            rw [mfind_mset_ne f o.flag _ hofl]
            exact hv1
          · intro o' ho' _
            exact absurd ho' (by simp)

theorem walk_inv (OPTS : List (String × ConfigOption)) (LL : LogLevel)
    (f : String) (o0 : ConfigOption)
    (hf : mfind f OPTS = some o0) (hdef : o0.defaultValue.isEmpty = true) (hfne : f ≠ "")
    (hWF : ∀ kv ∈ OPTS, kv.2.flag = kv.1) :
    ∀ (toks : List String) (st : ParseState),
      st.cfg.options = OPTS → st.cfg.logLevel = LL →
      (∃ v, mfind f st.cfg.optionValues = some v ∧ v.isEmpty = true) →
      (∀ o ∈ st.cursor, o.flag = f → o.defaultValue.isEmpty = true) →
      (toks.foldl parseToken st).cfg.options = OPTS
        ∧ (toks.foldl parseToken st).cfg.logLevel = LL
        ∧ (∃ v, mfind f (toks.foldl parseToken st).cfg.optionValues = some v
            ∧ v.isEmpty = true)
  | [], _, hA, hB, hC, _ => ⟨hA, hB, hC⟩
  | tok :: rest, st, hA, hB, hC, hD => by
    rw [List.foldl_cons]
    obtain ⟨a, b, c, d⟩ := parseToken_inv OPTS LL f o0 hf hdef hfne hWF st tok hA hB hC hD
    exact walk_inv OPTS LL f o0 hf hdef hfne hWF rest _ a b c d

/-- C1 counterexample: a Config whose schema contains a required option
(`--count`, Int, required) with a NON-Absent default (1), parsed with an
argument vector that never supplies a value for it, under the default
(at-or-below-ERROR) log threshold: `parse` returns true, against the
claim's "parse returns false" — the post-parse validation only rejects
values that are still Absent, and a required option with a default is not. -/
theorem c1_counterexample :
    (requiredWithDefaultConfig.parse emptyFs nullJsonOracle ["prog"]).2 = true
      ∧ (mfind "count" requiredWithDefaultConfig.options).map ConfigOption.required
          = some true
      ∧ requiredWithDefaultConfig.logLevel.toNat ≤ LogLevel.ERROR.toNat := by
  exact ⟨by decide, by decide, by decide⟩

theorem parseAfterFormat_required_absent (fs : String → String) (jp : String → Json)
    (cfg : Config) (args : List String) (f : String) (o0 : ConfigOption)
    (hf : mfind f cfg.options = some o0)
    (hdef : o0.defaultValue.isEmpty = true)
    (hhid : o0.hidden = false)
    (hfne : f ≠ "")
    (hWF : ∀ kv ∈ cfg.options, kv.2.flag = kv.1)
    (hnd : (cfg.options.map Prod.fst).Nodup)
    (hnocfg : ∀ a ∈ args, a ≠ "--config" ∧ a ≠ "-cfg")
    (hthr : cfg.logLevel.toNat ≤ LogLevel.ERROR.toNat) :
    (cfg.parseAfterFormat fs jp args).2 = false
      ∧ (⟨.ERROR, f, "option contains invalid value"⟩ : LogEntry)
          ∈ (cfg.parseAfterFormat fs jp args).1.logList := by
  unfold Config.parseAfterFormat
  dsimp only
  set cfgd := cfg.setDefaultValues with hcd
  have hdopts : cfgd.options = cfg.options := rfl
  have hdll : cfgd.logLevel = cfg.logLevel := rfl
  have hdvals : mfind f cfgd.optionValues = some o0.defaultValue := by
    show mfind f (setDefaultsScan cfg.optionValues cfg.options) = some o0.defaultValue
    exact setDefaultsScan_mfind f o0 cfg.options cfg.optionValues hf hnd
  have hnoop : (if cfgd.loadConfig then configScan fs jp cfgd (args.drop 1) else cfgd)
      = cfgd := by
    split
    · exact configScan_noop fs jp (args.drop 1) cfgd
        (fun a ha => hnocfg a (List.mem_of_mem_drop ha))
    · rfl
  rw [hnoop]
  obtain ⟨hwA, hwB, v, hv1, hv2⟩ := walk_inv cfg.options cfg.logLevel f o0 hf hdef hfne hWF
    (args.drop 1) { cfg := cfgd, cursor := none } hdopts hdll
    ⟨o0.defaultValue, hdvals, hdef⟩ (by intro o ho; exact absurd ho (by simp))
  set stw := (args.drop 1).foldl parseToken { cfg := cfgd, cursor := none } with hstw
  have hpv : mfind f (purgeHidden stw.cfg.options stw.cfg.optionValues) = some v := by
    rw [mfind_purgeHidden_not_hidden f stw.cfg.options stw.cfg.optionValues ?_]
    · exact hv1
    · intro kv hm hk
      have hkv : kv.2 = o0 := by
        refine eq_of_mem_nodup_mfind f o0 cfg.options hnd hf kv ?_ hk
        rw [← hwA]; exact hm
      rw [hkv]; exact hhid
  have hval := validate_reports_empty stw.cfg f v hpv hv2 (by rw [hwB]; exact hthr)
  rw [if_pos ⟨hval.1, by rw [validate_logLevel, hwB]; exact hthr⟩]
  exact ⟨rfl, hval.2⟩

/-- C1 (amended): for every Config whose schema contains a NON-HIDDEN
required option whose default Value is Absent (so its key still maps to
the option's canonical flag, the schema's keys are unique, the flag is
nonempty), and every argument vector that names no `--config`/`-cfg`
token, if the active log threshold is at or below ERROR and the pre-parse
format check reports below ERROR, then `parse` returns false and the
diagnostic log contains an ERROR entry naming that option's canonical
flag ("option contains invalid value"), because its resolved value is
still Absent at post-parse validation.  (A required option with a
non-Absent default makes parse succeed, see the counterexample; no
argument can ever fill an Absent-default option because its declared type
is UNKNOWN and every coercion against UNKNOWN fails.) -/
theorem c1_required_absent_default_fails (fs : String → String) (jp : String → Json)
    (cfg : Config) (args : List String) (f : String) (o0 : ConfigOption)
    (hf : mfind f cfg.options = some o0)
    (hreq : o0.required = true)
    (hdef : o0.defaultValue.isEmpty = true)
    (hhid : o0.hidden = false)
    (hfne : f ≠ "")
    (hWF : ∀ kv ∈ cfg.options, kv.2.flag = kv.1)
    (hnd : (cfg.options.map Prod.fst).Nodup)
    (hnocfg : ∀ a ∈ args, a ≠ "--config" ∧ a ≠ "-cfg")
    (hthr : cfg.logLevel.toNat ≤ LogLevel.ERROR.toNat)
    (hcf : (({ cfg with exeName := exeNameOf (args.headD "") } : Config).checkFormat).2.toNat
        < LogLevel.ERROR.toNat) :
    (cfg.parse fs jp args).2 = false
      ∧ (⟨.ERROR, f, "option contains invalid value"⟩ : LogEntry)
          ∈ (cfg.parse fs jp args).1.logList := by
  unfold Config.parse
  dsimp only
  set cfg1 : Config := { cfg with exeName := exeNameOf (args.headD "") } with hc1
  rw [if_neg (fun hand => absurd hand.1 (by omega))]
  have hO : (cfg1.checkFormat).1.options = cfg.options :=
    checkFormat_pres cfg1 (fun c => c.options = cfg.options)
      (fun c lv t m h => (addLog_options c lv t m).trans h) rfl
  have hL : (cfg1.checkFormat).1.logLevel = cfg.logLevel :=
    checkFormat_pres cfg1 (fun c => c.logLevel = cfg.logLevel)
      (fun c lv t m h => (addLog_logLevel c lv t m).trans h) rfl
  exact parseAfterFormat_required_absent fs jp (cfg1.checkFormat).1 args f o0
    (by rw [hO]; exact hf) hdef hhid hfne
    (by rw [hO]; exact hWF) (by rw [hO]; exact hnd) hnocfg (by rw [hL]; exact hthr)

/-- C1 witness: the spec's own example — schema `{--count (Int, default=1),
--name (Text, required)}` with arguments `["prog", "--count", "5"]` — the
claim theorem applied at it. -/
theorem c1_required_absent_default_fails_witness :
    (exampleSchemaConfig.parse emptyFs nullJsonOracle ["prog", "--count", "5"]).2 = false
      ∧ (⟨.ERROR, "name", "option contains invalid value"⟩ : LogEntry)
          ∈ (exampleSchemaConfig.parse emptyFs nullJsonOracle ["prog", "--count", "5"]).1.logList :=
  c1_required_absent_default_fails emptyFs nullJsonOracle exampleSchemaConfig
    ["prog", "--count", "5"] "name"
    { flag := "name", shortflag := "n", descriptionText := "a name",
      defaultValue := Value.unknown, required := true, hidden := false }
    (by decide) (by decide) (by decide) (by decide) (by decide) (by decide) (by decide)
    (by decide) (by decide) (by decide)

end Miniconf
